import Mathlib

set_option maxRecDepth 8000

/-!
Shallow embedding of the core of the `crypt4gh` Go repository
(`keys/keys.go` and `streaming/out.go`) and proofs about it.

Bytes are modelled as `List Nat`.  External cryptographic primitives
(curve25519, BLAKE2b, ChaCha20-Poly1305, the password KDFs) are
uninterpreted function parameters collected in `CryptoPrims`; external
parsers (ssh, pem, asn1 from the Go standard library and x/crypto) are
parameters collected in `ParseEnv`.  Everything the repository itself
computes is embedded concretely.
-/

namespace Crypt4gh

abbrev Bytes := List Nat

/-- ASCII bytes of a string literal (all names in the source are ASCII). -/
def strBytes (s : String) : Bytes := s.data.map Char.toNat

/-- `keys.go` constant `magic = "c4gh-v1"`. -/
def magicBytes : Bytes := strBytes "c4gh-v1"

/-- `keys.go` constant `none = "none"`. -/
def noneName : Bytes := strBytes "none"

/-- `keys.go` constant `supportedCipherName = "chacha20_poly1305"`. -/
def supportedCipherName : Bytes := strBytes "chacha20_poly1305"

def scryptName : Bytes := strBytes "scrypt"

/-- `keys.go`: `var ed25519Algorithm = []int{1, 3, 101, 112}`. -/
def ed25519Algorithm : List Nat := [1, 3, 101, 112]

/-- `keys.go`: `var x25519Algorithm = []int{1, 3, 101, 110}`. -/
def x25519Algorithm : List Nat := [1, 3, 101, 110]

/-- Modelled from the spec: the `kdf` package of this repository is not
under `src/`; per spec §4.A its registry `kdf.KDFS` maps exactly the names
`scrypt`, `bcrypt_pbkdf`, `pbkdf2_hmac_sha256` and `none`. -/
def kdfsNames : List Bytes :=
  [strBytes "scrypt", strBytes "bcrypt_pbkdf",
   strBytes "pbkdf2_hmac_sha256", strBytes "none"]

/-- External cryptographic primitives used by `keys.go`, uninterpreted. -/
structure CryptoPrims where
  /-- `curve25519.X25519(priv, pub)`; `none` models the error case. -/
  x25519 : Bytes → Bytes → Option Bytes
  /-- `curve25519.ScalarBaseMult`. -/
  scalarBaseMult : Bytes → Bytes
  /-- `blake2b.Sum512`. -/
  blake2b512 : Bytes → Bytes
  /-- `extra25519.PrivateKeyToCurve25519` (64-byte Ed25519 key → 32 bytes). -/
  privateKeyToCurve25519 : Bytes → Bytes
  /-- `extra25519.PublicKeyToCurve25519` (32-byte Ed25519 public → 32 bytes;
  the source ignores its boolean success flag). -/
  publicKeyToCurve25519 : Bytes → Bytes
  /-- `chacha20poly1305` `aead.Seal(nil, nonce, plaintext, nil)`: key, nonce,
  plaintext → ciphertext-with-tag. -/
  chachaSeal : Bytes → Bytes → Bytes → Bytes
  /-- `aead.Open(nil, nonce, ct, nil)`: key, nonce, ciphertext-with-tag →
  plaintext, `none` on authentication failure. -/
  chachaOpen : Bytes → Bytes → Bytes → Option Bytes
  /-- `kdf.KDFS[name].Derive(rounds, password, salt)`; `none` models the
  error case. -/
  kdfDerive : Bytes → Nat → Bytes → Bytes → Option Bytes

/-- `keys.go` `DerivePublicKey`: `curve25519.ScalarBaseMult(&publicKey, &privateKey)`. -/
def DerivePublicKey (C : CryptoPrims) (privateKey : Bytes) : Bytes :=
  C.scalarBaseMult privateKey

/-- `keys.go` `generateSharedKey`: append `diffieHellmanKey`, reader public
key, writer public key; BLAKE2b-512; keep the first 32 bytes.  The source
never returns an error here, so the model returns the key directly. -/
def generateSharedKey (C : CryptoPrims)
    (diffieHellmanKey readerPublicKey writerPublicKey : Bytes) : Bytes :=
  let combination := diffieHellmanKey ++ readerPublicKey ++ writerPublicKey
  (C.blake2b512 combination).take 32

/-- `keys.go` `GenerateReaderSharedKey`: derive own public key, run X25519,
then `generateSharedKey(dh, derivedPublicKey, publicKey)`. -/
def GenerateReaderSharedKey (C : CryptoPrims)
    (privateKey publicKey : Bytes) : Option Bytes :=
  let derivedPublicKey := DerivePublicKey C privateKey
  (C.x25519 privateKey publicKey).map fun diffieHellmanKey =>
    generateSharedKey C diffieHellmanKey derivedPublicKey publicKey

/-- `keys.go` `GenerateWriterSharedKey`: derive own public key, run X25519,
then `generateSharedKey(dh, publicKey, derivedPublicKey)`. -/
def GenerateWriterSharedKey (C : CryptoPrims)
    (privateKey publicKey : Bytes) : Option Bytes :=
  let derivedPublicKey := DerivePublicKey C privateKey
  (C.x25519 privateKey publicKey).map fun diffieHellmanKey =>
    generateSharedKey C diffieHellmanKey publicKey derivedPublicKey

/-! ## Binary reading (`encoding/binary`, big-endian, over a `bytes.Buffer`) -/

/-- `binary.Read(&buf, binary.BigEndian, &length)` for a `uint16`. -/
def readU16 : Bytes → Option (Nat × Bytes)
  | a :: b :: rest => some (a * 256 + b, rest)
  | _ => none

/-- `binary.Read(&buf, binary.BigEndian, &rounds)` for a `uint32`. -/
def readU32 : Bytes → Option (Nat × Bytes)
  | a :: b :: c :: d :: rest => some (((a * 256 + b) * 256 + c) * 256 + d, rest)
  | _ => none

/-- `binary.Read` into a byte slice of length `n`: reads exactly `n` bytes
or fails (`io.ErrUnexpectedEOF`/`io.EOF`). -/
def readBytesN (n : Nat) (b : Bytes) : Option (Bytes × Bytes) :=
  if n ≤ b.length then some (b.take n, b.drop n) else none

/-- Big-endian `uint16` serialization (`binary.Write`). -/
def u16be (n : Nat) : Bytes := [n / 256 % 256, n % 256]

/-- Go's `copy(privateKey[:], src)` into a zeroed 32-byte array: the first
`min 32 src.length` bytes come from `src`, the rest stay zero. -/
def copy32 (src : Bytes) : Bytes :=
  src.take 32 ++ List.replicate (32 - src.length) 0

/-- Go's `copy(edKeyBytes[:], src)` into a zeroed 64-byte array. -/
def copy64 (src : Bytes) : Bytes :=
  src.take 64 ++ List.replicate (64 - src.length) 0

/-! ## Error and result model -/

/-- The distinct error values `keys.go` can return. -/
inductive KeyError where
  /-- a `binary.Read` hit the end of the buffer -/
  | ioError
  /-- `KDF %v not supported` -/
  | unsupportedKDF (name : Bytes)
  /-- `private key is password-protected, need a password for decryption` -/
  | passwordRequired
  /-- `invalid private key: KDF is 'none', but cipher is not 'none'` -/
  | mismatchedKdfCipher
  /-- `unsupported key encryption: %v` -/
  | unsupportedCipher (name : Bytes)
  /-- the KDF's `Derive` returned an error -/
  | kdfFailed
  /-- `chacha20poly1305.New` rejected the derived key's length -/
  | badKeyLength
  /-- `aead.Open` failed (authentication / wrong passphrase) -/
  | decryptFailed
  /-- `private key format not supported` -/
  | unsupportedPrivateKeyFormat
  deriving DecidableEq, Repr

/-- Outcome of a Go call: a value, a returned error, or a runtime panic
(nil dereference, slice bounds out of range, failed type assertion). -/
inductive GoResult (α : Type) where
  | ok (value : α)
  | err (e : KeyError)
  | panics
  deriving DecidableEq, Repr

/-! ## `readCrypt4GHPrivateKey` (`keys.go` lines 122–204) -/

/-- The part of `readCrypt4GHPrivateKey` after the rounds/salt section:
read cipher name and payload, dispatch on KDF/cipher, decrypt.  `passPhrase`
and `rounds`/`salt` are only used on the non-`none` KDF path. -/
def readCrypt4GHPrivateKeyTail (C : CryptoPrims) (kdfName passPhrase : Bytes)
    (rounds : Nat) (salt : Bytes) (buf : Bytes) : GoResult Bytes :=
  match readU16 buf with
  | none => .err .ioError
  | some (cipherLen, b1) =>
  match readBytesN cipherLen b1 with
  | none => .err .ioError
  | some (ciphername, b2) =>
  match readU16 b2 with
  | none => .err .ioError
  | some (payloadLen, b3) =>
  match readBytesN payloadLen b3 with
  | none => .err .ioError
  | some (payload, _) =>
  if kdfName = noneName then
    if ciphername ≠ noneName then .err .mismatchedKdfCipher
    else .ok (copy32 payload)
  else if ciphername ≠ supportedCipherName then .err (.unsupportedCipher ciphername)
  else
    match C.kdfDerive kdfName rounds passPhrase salt with
    | none => .err .kdfFailed
    | some derivedKey =>
      if derivedKey.length ≠ 32 then .err .badKeyLength
      else if payload.length < 12 then .panics  -- payload[:NonceSize] out of range
      else
        match C.chachaOpen derivedKey (payload.take 12) (payload.drop 12) with
        | none => .err .decryptFailed
        | some decryptedPrivateKey => .ok (copy32 decryptedPrivateKey)

/-- `readCrypt4GHPrivateKey`: skip the 7-byte magic, read the KDF name,
check it against `kdf.KDFS`, read rounds and salt when the KDF is not
`none` (`length-4` is Go `uint16` arithmetic, hence the mod 2^16), then
hand over to the tail. -/
def readCrypt4GHPrivateKey (C : CryptoPrims) (pemBytes : Bytes)
    (passPhrase : Option Bytes) : GoResult Bytes :=
  let buf := pemBytes.drop magicBytes.length
  match readU16 buf with
  | none => .err .ioError
  | some (kdfLen, b1) =>
  match readBytesN kdfLen b1 with
  | none => .err .ioError
  | some (kdfName, b2) =>
  if kdfName ∈ kdfsNames then
    if kdfName ≠ noneName then
      match passPhrase with
      | none => .err .passwordRequired
      | some pp =>
        match readU16 b2 with
        | none => .err .ioError
        | some (saltSectionLen, b3) =>
        match readU32 b3 with
        | none => .err .ioError
        | some (rounds, b4) =>
        match readBytesN ((saltSectionLen + 65536 - 4) % 65536) b4 with
        | none => .err .ioError
        | some (salt, b5) => readCrypt4GHPrivateKeyTail C kdfName pp rounds salt b5
    else readCrypt4GHPrivateKeyTail C kdfName [] 0 [] b2
  else .err (.unsupportedKDF kdfName)

/-! ## `ReadPrivateKey` / `ReadPublicKey` dispatch (`keys.go` 63–120, 211–251) -/

/-- Result of `ssh.ParseRawPrivateKey(WithPassphrase)`. -/
inductive SSHParseResult where
  /-- the call returned an error -/
  | sshError
  /-- an `ed25519.PrivateKey` (value or pointer), 64 bytes -/
  | edKey (k : Bytes)
  /-- parsed, but a different key type: the `key.(ed25519.PrivateKey)`
  type assertion panics -/
  | otherKey
  deriving DecidableEq

/-- The `openSSLPrivateKey` struct as filled in by `asn1.Unmarshal`. -/
structure OpenSSLPrivateKeyParsed where
  version : Int
  algorithm : List Nat
  payload : Bytes
  deriving DecidableEq

/-- External parsers used by `keys.go`, uninterpreted: the ssh private and
authorized-keys parsers, `pem.Decode` (returning `block.Bytes`, or `none`
for a nil block) and `asn1.Unmarshal` for the private and public structs. -/
structure ParseEnv where
  sshParsePrivate : Bytes → Option Bytes → SSHParseResult
  pemDecode : Bytes → Option Bytes
  asn1UnmarshalPrivate : Bytes → Option OpenSSLPrivateKeyParsed
  sshParseAuthorized : Bytes → Option Bytes
  asn1UnmarshalPublic : Bytes → Option (List Nat)

/-- `ReadPrivateKey`: try OpenSSH, then PKCS#8 (Ed25519 / X25519 OID),
then Crypt4GH; otherwise the `private key format not supported` error.
A nil PEM block or a PEM body shorter than the sliced bounds panics,
exactly as the Go code does. -/
def ReadPrivateKey (E : ParseEnv) (C : CryptoPrims) (allBytes : Bytes)
    (passPhrase : Option Bytes) : GoResult Bytes :=
  match E.sshParsePrivate allBytes passPhrase with
  | .edKey k => .ok (C.privateKeyToCurve25519 (copy64 k))
  | .otherKey => .panics
  | .sshError =>
    match E.pemDecode allBytes with
    | none => .panics  -- block is nil; block.Bytes dereferences a nil pointer
    | some body =>
      let tryCrypt4gh : GoResult Bytes :=
        if body.length < 7 then .panics  -- block.Bytes[:7] out of range
        else if body.take 7 = magicBytes then readCrypt4GHPrivateKey C body passPhrase
        else .err .unsupportedPrivateKeyFormat
      match E.asn1UnmarshalPrivate body with
      | some parsed =>
        if parsed.algorithm = ed25519Algorithm then
          if body.length < 32 then .panics  -- block.Bytes[len-32:] out of range
          else .ok (C.privateKeyToCurve25519 (copy64 (body.drop (body.length - 32))))
        else if parsed.algorithm = x25519Algorithm then
          if body.length < 32 then .panics
          else .ok (copy32 (body.drop (body.length - 32)))
        else tryCrypt4gh
      | none => tryCrypt4gh

/-- `ReadPublicKey`: try ssh `authorized_keys`, then PKCS#8, then
unconditionally copy the trailing 32 bytes of the PEM body. -/
def ReadPublicKey (E : ParseEnv) (C : CryptoPrims) (allBytes : Bytes) :
    GoResult Bytes :=
  match E.sshParseAuthorized allBytes with
  | some marshalledKey =>
    if marshalledKey.length < 32 then .panics
    else .ok (C.publicKeyToCurve25519
        (copy32 (marshalledKey.drop (marshalledKey.length - 32))))
  | none =>
    match E.pemDecode allBytes with
    | none => .panics
    | some body =>
      let fallback : GoResult Bytes :=
        if body.length < 32 then .panics  -- block.Bytes[len-32:] out of range
        else .ok (copy32 (body.drop (body.length - 32)))
      match E.asn1UnmarshalPublic body with
      | some oid =>
        if oid = ed25519Algorithm then
          if body.length < 32 then .panics
          else .ok (C.publicKeyToCurve25519 (copy32 (body.drop (body.length - 32))))
        else if oid = x25519Algorithm then
          if body.length < 32 then .panics
          else .ok (copy32 (body.drop (body.length - 32)))
        else fallback
      | none => fallback

/-! ## Key writers (`keys.go` 254–369) -/

/-- DER body produced by `WriteOpenSSLX25519PrivateKey`, modelling
`encoding/asn1`'s output on this fixed structure for keys shorter than
128 bytes (short-form lengths): `asn1.Marshal(privateKey[:])` is an
OCTET STRING, wrapped in
`SEQUENCE { INTEGER 0, SEQUENCE { OID 1.3.101.110 }, OCTET STRING ... }`;
this DER is what `pem.Encode` then wraps under the `PRIVATE KEY` label. -/
def WriteOpenSSLX25519PrivateKeyDER (privateKey : Bytes) : Bytes :=
  let marshalledPayload := [4, privateKey.length] ++ privateKey
  let content :=
    [2, 1, 0] ++ [48, 5, 6, 3, 43, 101, 110] ++
    [4, marshalledPayload.length] ++ marshalledPayload
  [48, content.length] ++ content

/-- PEM body produced by `WriteCrypt4GHX25519PrivateKey`.  The Go code
draws `salt` (16 bytes) and `nonce` (12 bytes) from the platform PRNG;
here they are parameters.  KDF is `scrypt` with rounds 0; `rounds` is
serialized as the zero `[4]byte`; the function fails (returns `none`)
exactly where the Go code returns early on an error. -/
def WriteCrypt4GHX25519PrivateKeyBody (C : CryptoPrims)
    (privateKey password salt nonce : Bytes) : Option Bytes :=
  match C.kdfDerive scryptName 0 password salt with
  | none => none
  | some derivedKey =>
    if derivedKey.length ≠ 32 then none  -- chacha20poly1305.New rejects the key
    else
      let encryptedPrivateKey := C.chachaSeal derivedKey nonce privateKey
      let roundsWithSalt := [0, 0, 0, 0] ++ salt
      let nonceWithKey := nonce ++ encryptedPrivateKey
      some (magicBytes
        ++ u16be scryptName.length ++ scryptName
        ++ u16be roundsWithSalt.length ++ roundsWithSalt
        ++ u16be supportedCipherName.length ++ supportedCipherName
        ++ u16be nonceWithKey.length ++ nonceWithKey)

/-! ## Streaming writer (`streaming/out.go`)

`headers.UnencryptedDataSegmentSize` lives in the `model/headers` package.
Modelled from the spec: the unencrypted segment size is fixed at 65 536
bytes (spec §3), and `NewCrypt4GHWriter` grows the buffer to exactly that
capacity.  Segment marshalling (`model/body`) only wraps the buffered
plaintext, so the state records the plaintext handed to each emitted
segment. -/

def unencryptedDataSegmentSize : Nat := 65536

/-- The mutable state of a `Crypt4GHWriter`: the plaintext buffer and the
plaintexts of the segments emitted so far, in order. -/
structure Crypt4GHWriterState where
  buffer : Bytes
  segments : List Bytes
  deriving DecidableEq, Repr

/-- State right after `NewCrypt4GHWriter` (header written, empty buffer). -/
def initWriter : Crypt4GHWriterState := ⟨[], []⟩

/-- `flushBuffer`: seal and emit the buffered bytes as one segment and
reset the buffer.  There is no emptiness check in the source. -/
def flushBuffer (s : Crypt4GHWriterState) : Crypt4GHWriterState :=
  { buffer := [], segments := s.segments ++ [s.buffer] }

/-- `WriteByte`: if the buffer is at capacity (`Len() == Cap()`, the
capacity being the segment size), flush first; then append the byte. -/
def writeByte (s : Crypt4GHWriterState) (b : Nat) : Crypt4GHWriterState :=
  if s.buffer.length = unencryptedDataSegmentSize then
    { buffer := [b], segments := s.segments ++ [s.buffer] }
  else { s with buffer := s.buffer ++ [b] }

/-- `Write`: write the bytes one by one through `WriteByte`. -/
def writeBytes (s : Crypt4GHWriterState) (p : Bytes) : Crypt4GHWriterState :=
  p.foldl writeByte s

/-- `Close`: unconditionally `flushBuffer`. -/
def closeWriter (s : Crypt4GHWriterState) : Crypt4GHWriterState :=
  flushBuffer s

/-! ## Helper lemmas -/

theorem readBytesN_exact (a b : Bytes) : readBytesN a.length (a ++ b) = some (a, b) := by
  simp [readBytesN, List.take_left, List.drop_left]

theorem readBytesN_of_length (n : Nat) (a b : Bytes) (h : a.length = n) :
    readBytesN n (a ++ b) = some (a, b) := by
  subst h; exact readBytesN_exact a b

theorem readU16_u16be (n : Nat) (h : n < 65536) (rest : Bytes) :
    readU16 (u16be n ++ rest) = some (n, rest) := by
  have h2 : n / 256 < 256 := by omega
  simp [readU16, u16be, Nat.mod_eq_of_lt h2]
  omega

theorem copy32_of_length (p : Bytes) (h : p.length = 32) : copy32 p = p := by
  simp [copy32, h, List.take_of_length_le]

theorem drop_magic (rest : Bytes) :
    (magicBytes ++ rest).drop magicBytes.length = rest :=
  List.drop_left magicBytes rest

/-- Parsing a serialized key body whose KDF is in the registry and not
`none`, with a passphrase supplied, reaches the tail with the decoded
rounds and salt. -/
theorem readCrypt4GH_parse_nonNone (C : CryptoPrims) (name salt rest pp : Bytes)
    (a b c d : Nat) (hmem : name ∈ kdfsNames) (hnn : name ≠ noneName)
    (hnl : name.length < 65536) (hsl : salt.length < 65532) :
    readCrypt4GHPrivateKey C
      (magicBytes ++ u16be name.length ++ name ++ u16be (4 + salt.length)
        ++ [a, b, c, d] ++ salt ++ rest) (some pp)
      = readCrypt4GHPrivateKeyTail C name pp (((a * 256 + b) * 256 + c) * 256 + d)
          salt rest := by
  have h1 : 4 + salt.length < 65536 := by omega
  have harith : (4 + salt.length + 65536 - 4) % 65536 = salt.length := by omega
  simp only [readCrypt4GHPrivateKey, List.append_assoc, drop_magic,
    readU16_u16be _ hnl]
  rw [readBytesN_exact]
  simp only [hmem, if_true, reduceIte]
  rw [if_pos hnn, readU16_u16be _ h1]
  simp only [List.cons_append, List.nil_append, readU32]
  rw [harith, readBytesN_exact]

/-- Parsing a serialized key body whose KDF is `none` reaches the tail with
zero rounds and an empty salt, whether or not a passphrase was supplied. -/
theorem readCrypt4GH_parse_none (C : CryptoPrims) (rest : Bytes) (pp : Option Bytes) :
    readCrypt4GHPrivateKey C (magicBytes ++ u16be 4 ++ noneName ++ rest) pp
      = readCrypt4GHPrivateKeyTail C noneName [] 0 [] rest := by
  have h4 : noneName.length = 4 := rfl
  have hmem : noneName ∈ kdfsNames := by decide
  simp only [readCrypt4GHPrivateKey, List.append_assoc, drop_magic]
  rw [show u16be 4 = [0, 4] from rfl]
  simp only [readU16, List.cons_append, List.nil_append]
  rw [readBytesN_of_length 4 noneName _ h4]
  simp [hmem]

/-- The tail on a serialized cipher-name and payload dispatches on the
KDF/cipher names exactly as `keys.go` lines 177–203. -/
theorem readCrypt4GHTail_parse (C : CryptoPrims) (name pp : Bytes) (rounds : Nat)
    (salt cipher payload : Bytes)
    (hcl : cipher.length < 65536) (hpl : payload.length < 65536) :
    readCrypt4GHPrivateKeyTail C name pp rounds salt
      (u16be cipher.length ++ cipher ++ u16be payload.length ++ payload)
    = if name = noneName then
        (if cipher ≠ noneName then .err .mismatchedKdfCipher
         else .ok (copy32 payload))
      else if cipher ≠ supportedCipherName then .err (.unsupportedCipher cipher)
      else
        match C.kdfDerive name rounds pp salt with
        | none => .err .kdfFailed
        | some derivedKey =>
          if derivedKey.length ≠ 32 then .err .badKeyLength
          else if payload.length < 12 then .panics
          else
            match C.chachaOpen derivedKey (payload.take 12) (payload.drop 12) with
            | none => .err .decryptFailed
            | some m => .ok (copy32 m) := by
  have hp : readBytesN payload.length payload = some (payload, []) := by
    simpa using readBytesN_exact payload []
  simp only [readCrypt4GHPrivateKeyTail, List.append_assoc,
    readU16_u16be _ hcl, readBytesN_exact, readU16_u16be _ hpl, hp]

theorem writeBytes_append (s : Crypt4GHWriterState) (p q : Bytes) :
    writeBytes s (p ++ q) = writeBytes (writeBytes s p) q :=
  List.foldl_append _ _ p q

/-- As long as the buffer does not reach the segment size, `Write` only
appends to the buffer and emits nothing. -/
theorem writeBytes_no_flush (s : Crypt4GHWriterState) (p : Bytes)
    (h : s.buffer.length + p.length ≤ unencryptedDataSegmentSize) :
    writeBytes s p = { s with buffer := s.buffer ++ p } := by
  induction p generalizing s with
  | nil => simp [writeBytes]
  | cons b rest ih =>
    simp only [List.length_cons] at h
    have hne : s.buffer.length ≠ unencryptedDataSegmentSize := by omega
    have hstep : writeBytes s (b :: rest)
        = writeBytes { s with buffer := s.buffer ++ [b] } rest := by
      simp [writeBytes, writeByte, hne]
    rw [hstep, ih _ (by
      simp only [List.length_append, List.length_cons, List.length_nil]
      omega)]
    simp

/-- Invariant: every segment emitted by `Write` alone carries exactly the
segment size, and the buffer never exceeds it. -/
theorem writeBytes_segments_full (s : Crypt4GHWriterState) (p : Bytes)
    (hbuf : s.buffer.length ≤ unencryptedDataSegmentSize)
    (hsegs : ∀ seg ∈ s.segments, seg.length = unencryptedDataSegmentSize) :
    (writeBytes s p).buffer.length ≤ unencryptedDataSegmentSize ∧
    ∀ seg ∈ (writeBytes s p).segments, seg.length = unencryptedDataSegmentSize := by
  induction p generalizing s with
  | nil => exact ⟨hbuf, hsegs⟩
  | cons b rest ih =>
    have hstep : writeBytes s (b :: rest) = writeBytes (writeByte s b) rest := by
      simp [writeBytes]
    rw [hstep]
    by_cases hfull : s.buffer.length = unencryptedDataSegmentSize
    · refine ih _ ?_ ?_
      · simp [writeByte, hfull, unencryptedDataSegmentSize]
      · intro seg hseg
        simp only [writeByte, hfull, if_pos] at hseg
        simp only [reduceIte, List.mem_append, List.mem_singleton] at hseg
        rcases hseg with hseg | hseg
        · exact hsegs seg hseg
        · rw [hseg]; exact hfull
    · refine ih _ ?_ ?_
      · simp only [writeByte, hfull, if_neg, List.length_append,
          List.length_singleton]
        simp only [reduceIte, List.length_append, List.length_cons,
          List.length_nil]
        omega
      · intro seg hseg
        simp only [writeByte, hfull, reduceIte] at hseg
        exact hsegs seg hseg

/-! ## Concrete instantiations used by the witnesses -/

/-- A small executable instantiation of the cryptographic primitives, used
only to witness that the theorems' hypotheses are satisfiable. -/
def testPrims : CryptoPrims where
  x25519 := fun a b => some [a.length + b.length]
  scalarBaseMult := fun a => 1 :: a
  blake2b512 := fun a => a
  privateKeyToCurve25519 := fun a => a.take 32
  publicKeyToCurve25519 := fun a => a
  chachaSeal := fun k _n m => k ++ m
  chachaOpen := fun k _n c => if c.take 32 = k then some (c.drop 32) else none
  kdfDerive := fun _name _rounds pw _salt =>
    some (pw.take 32 ++ List.replicate (32 - pw.length) 0)

/-- An executable parser environment returning fixed results, used only to
witness that the dispatch hypotheses are satisfiable. -/
def constParseEnv (body : Option Bytes) (asn1Priv : Option OpenSSLPrivateKeyParsed)
    (sshPub : Option Bytes) (asn1Pub : Option (List Nat)) : ParseEnv where
  sshParsePrivate := fun _ _ => .sshError
  pemDecode := fun _ => body
  asn1UnmarshalPrivate := fun _ => asn1Priv
  sshParseAuthorized := fun _ => sshPub
  asn1UnmarshalPublic := fun _ => asn1Pub

/-! ## Claim theorems -/

/-- **C1.** Whenever `X25519(priv, pub)` succeeds with value `dh`,
`GenerateReaderSharedKey` returns the first 32 bytes of
`BLAKE2b-512(dh ‖ DerivePublicKey(priv) ‖ pub)` and
`GenerateWriterSharedKey` returns the first 32 bytes of
`BLAKE2b-512(dh ‖ pub ‖ DerivePublicKey(priv))`: the two public keys
appear in opposite orders in the two roles. -/
theorem sharedKey_hash_input_order (C : CryptoPrims) (priv pub dh : Bytes)
    (h : C.x25519 priv pub = some dh) :
    GenerateReaderSharedKey C priv pub
      = some ((C.blake2b512 (dh ++ DerivePublicKey C priv ++ pub)).take 32) ∧
    GenerateWriterSharedKey C priv pub
      = some ((C.blake2b512 (dh ++ pub ++ DerivePublicKey C priv)).take 32) := by
  constructor <;>
    simp [GenerateReaderSharedKey, GenerateWriterSharedKey, generateSharedKey, h]

theorem sharedKey_hash_input_order_witness :
    testPrims.x25519 [1] [2] = some [2] ∧
    (GenerateReaderSharedKey testPrims [1] [2]
      = some ((testPrims.blake2b512
          ([2] ++ DerivePublicKey testPrims [1] ++ [2])).take 32) ∧
     GenerateWriterSharedKey testPrims [1] [2]
      = some ((testPrims.blake2b512
          ([2] ++ [2] ++ DerivePublicKey testPrims [1])).take 32)) :=
  ⟨rfl, sharedKey_hash_input_order testPrims [1] [2] [2] rfl⟩

/-- **C2.** When the two X25519 calls of the exchange agree (the ECDH law
of the external curve25519 library), the reader-role key computed from
`(r_priv, w_pub)` equals the writer-role key computed from
`(w_priv, r_pub)`, where each public key is derived from the matching
private key. -/
theorem sharedKey_roles_agree (C : CryptoPrims) (rPriv wPriv dh : Bytes)
    (hr : C.x25519 rPriv (DerivePublicKey C wPriv) = some dh)
    (hw : C.x25519 wPriv (DerivePublicKey C rPriv) = some dh) :
    GenerateReaderSharedKey C rPriv (DerivePublicKey C wPriv)
      = GenerateWriterSharedKey C wPriv (DerivePublicKey C rPriv) := by
  simp [GenerateReaderSharedKey, GenerateWriterSharedKey, generateSharedKey,
    hr, hw]

theorem sharedKey_roles_agree_witness :
    GenerateReaderSharedKey testPrims [1] (DerivePublicKey testPrims [2, 3])
      = GenerateWriterSharedKey testPrims [2, 3] (DerivePublicKey testPrims [1]) :=
  sharedKey_roles_agree testPrims [1] [2, 3] [4] rfl rfl

/-- **C4.** Every non-final segment emitted by a `Crypt4GHWriter` carries
exactly 65 536 plaintext bytes; writing exactly 65 536 bytes then closing
emits one segment of 65 536 bytes, and writing 65 537 bytes then closing
emits two segments, of 65 536 and 1 plaintext bytes. -/
theorem writer_segment_sizes (p : Bytes) (b : Nat) :
    (∀ seg ∈ (closeWriter (writeBytes initWriter p)).segments.dropLast,
        seg.length = 65536) ∧
    (closeWriter (writeBytes initWriter (List.replicate 65536 b))).segments
      = [List.replicate 65536 b] ∧
    ((closeWriter (writeBytes initWriter (List.replicate 65537 b))).segments.map
        List.length = [65536, 1]) := by
  refine ⟨?_, ?_, ?_⟩
  · have h := writeBytes_segments_full initWriter p
      (by simp [initWriter]) (by simp [initWriter])
    intro seg hseg
    have hdl : (closeWriter (writeBytes initWriter p)).segments.dropLast
        = (writeBytes initWriter p).segments := by
      simp [closeWriter, flushBuffer, List.dropLast_concat]
    rw [hdl] at hseg
    exact h.2 seg hseg
  · rw [writeBytes_no_flush initWriter _ (by
      simp only [initWriter, List.length_nil, List.length_replicate,
        unencryptedDataSegmentSize]
      omega)]
    simp only [closeWriter, flushBuffer, initWriter, List.nil_append]
  · have hrep : List.replicate 65537 b = List.replicate 65536 b ++ [b] := by
      rw [show (65537 : Nat) = 65536 + 1 from rfl, List.replicate_succ']
    rw [hrep, writeBytes_append, writeBytes_no_flush initWriter _ (by
      simp only [initWriter, List.length_nil, List.length_replicate,
        unencryptedDataSegmentSize]
      omega)]
    simp only [writeBytes, List.foldl_cons, List.foldl_nil, writeByte,
      initWriter, List.nil_append, List.length_replicate,
      unencryptedDataSegmentSize, reduceIte, closeWriter, flushBuffer,
      List.map_cons, List.map_nil, List.length_cons, List.length_nil,
      List.cons_append, List.singleton_append]

theorem writer_segment_sizes_witness :
    (∀ seg ∈ (closeWriter (writeBytes initWriter [7])).segments.dropLast,
        seg.length = 65536) ∧
    (closeWriter (writeBytes initWriter (List.replicate 65536 7))).segments
      = [List.replicate 65536 7] ∧
    ((closeWriter (writeBytes initWriter (List.replicate 65537 7))).segments.map
        List.length = [65536, 1]) :=
  writer_segment_sizes [7] 7

/-- **C5, counterexample.** Writing zero bytes and closing emits one
zero-length segment: `Close` calls `flushBuffer` unconditionally, so the
claim that no segment is emitted when the buffer is empty is false. -/
theorem close_empty_buffer_emits_segment :
    (closeWriter (writeBytes initWriter [])).segments = [[]] ∧
    (closeWriter (writeBytes initWriter [])).segments ≠ [] := by
  constructor <;> decide

/-- **C5, amended.** `Close` always emits exactly one final segment,
whether or not the internal buffer is empty; in particular writing zero
bytes in total yields one zero-length segment after the header. -/
theorem close_always_flushes (p : Bytes) :
    (closeWriter (writeBytes initWriter p)).segments
      = (writeBytes initWriter p).segments ++ [(writeBytes initWriter p).buffer] ∧
    (closeWriter (writeBytes initWriter p)).segments.length
      = (writeBytes initWriter p).segments.length + 1 ∧
    (p = [] → (closeWriter (writeBytes initWriter p)).segments = [[]]) := by
  refine ⟨rfl, by simp [closeWriter, flushBuffer], ?_⟩
  rintro rfl
  decide

theorem close_always_flushes_witness :
    (closeWriter (writeBytes initWriter [5])).segments
      = (writeBytes initWriter [5]).segments ++ [(writeBytes initWriter [5]).buffer] ∧
    (closeWriter (writeBytes initWriter [5])).segments.length
      = (writeBytes initWriter [5]).segments.length + 1 ∧
    ([5] = ([] : Bytes) → (closeWriter (writeBytes initWriter [5])).segments = [[]]) :=
  close_always_flushes [5]

/-- When the ssh parser errors, the PEM body ASN.1-fails and starts with
the magic, `ReadPrivateKey` delegates to `readCrypt4GHPrivateKey`. -/
theorem ReadPrivateKey_crypt4gh_path (E : ParseEnv) (C : CryptoPrims)
    (file body : Bytes) (pp : Option Bytes)
    (hssh : E.sshParsePrivate file pp = .sshError)
    (hpem : E.pemDecode file = some body)
    (hasn : E.asn1UnmarshalPrivate body = none)
    (h7 : 7 ≤ body.length) (hmagic : body.take 7 = magicBytes) :
    ReadPrivateKey E C file pp = readCrypt4GHPrivateKey C body pp := by
  simp only [ReadPrivateKey, hssh, hpem, hasn]
  rw [if_neg (by omega), if_pos hmagic]

/-- When the ssh parser errors and the PEM body ASN.1-parses with the
X25519 OID, `ReadPrivateKey` copies the body's trailing 32 bytes. -/
theorem ReadPrivateKey_x25519_path (E : ParseEnv) (C : CryptoPrims)
    (file body : Bytes) (pp : Option Bytes) (parsed : OpenSSLPrivateKeyParsed)
    (hssh : E.sshParsePrivate file pp = .sshError)
    (hpem : E.pemDecode file = some body)
    (hasn : E.asn1UnmarshalPrivate body = some parsed)
    (halg : parsed.algorithm = x25519Algorithm)
    (hlen : 32 ≤ body.length) :
    ReadPrivateKey E C file pp = .ok (copy32 (body.drop (body.length - 32))) := by
  simp only [ReadPrivateKey, hssh, hpem, hasn, halg]
  rw [if_neg (by decide), if_pos trivial, if_neg (by omega)]

/-- **C3.** Writing a 32-byte private key with
`WriteCrypt4GHX25519PrivateKey` under password `w` and reading the file
back with `ReadPrivateKey` and passphrase `w` yields exactly the key;
reading with a different passphrase fails with the AEAD decryption error.
The scrypt KDF and the AEAD are uninterpreted, constrained by the stated
round-trip and authenticity hypotheses, which the real primitives satisfy
when the derived keys differ. -/
theorem crypt4gh_private_key_roundtrip (E : ParseEnv) (C : CryptoPrims)
    (p password wrongPass salt nonce file body dk dkw : Bytes)
    (hp : p.length = 32) (hsalt : salt.length = 16) (hnonce : nonce.length = 12)
    (hkdf : C.kdfDerive scryptName 0 password salt = some dk)
    (hdk32 : dk.length = 32)
    (hctlen : 12 + (C.chachaSeal dk nonce p).length < 65536)
    (hbody : WriteCrypt4GHX25519PrivateKeyBody C p password salt nonce = some body)
    (hopen : C.chachaOpen dk nonce (C.chachaSeal dk nonce p) = some p)
    (hssh : E.sshParsePrivate file (some password) = .sshError)
    (hsshw : E.sshParsePrivate file (some wrongPass) = .sshError)
    (hpem : E.pemDecode file = some body)
    (hasn : E.asn1UnmarshalPrivate body = none)
    (hkdfw : C.kdfDerive scryptName 0 wrongPass salt = some dkw)
    (hdkw32 : dkw.length = 32)
    (hopenw : C.chachaOpen dkw nonce (C.chachaSeal dk nonce p) = none) :
    ReadPrivateKey E C file (some password) = .ok p ∧
    ReadPrivateKey E C file (some wrongPass) = .err .decryptFailed := by
  have hbodyEq : body
      = magicBytes ++ u16be scryptName.length ++ scryptName
        ++ u16be (4 + salt.length) ++ [0, 0, 0, 0] ++ salt
        ++ (u16be supportedCipherName.length ++ supportedCipherName
            ++ u16be (nonce ++ C.chachaSeal dk nonce p).length
            ++ (nonce ++ C.chachaSeal dk nonce p)) := by
    simp only [WriteCrypt4GHX25519PrivateKeyBody] at hbody
    rw [hkdf] at hbody
    simp only [hdk32, ne_eq, not_true_eq_false, reduceIte, if_false,
      Option.some.injEq] at hbody
    rw [← hbody]
    simp [List.append_assoc, Nat.add_comm]
    congr 1
    omega
  have hmem : scryptName ∈ kdfsNames := by decide
  have hnn : scryptName ≠ noneName := by decide
  have hnl : scryptName.length < 65536 := by decide
  have hsl : salt.length < 65532 := by omega
  have hcl : supportedCipherName.length < 65536 := by decide
  have hpl : (nonce ++ C.chachaSeal dk nonce p).length < 65536 := by
    simp only [List.length_append, hnonce]
    omega
  have h7 : 7 ≤ body.length := by
    rw [hbodyEq]
    simp only [List.length_append, show magicBytes.length = 7 from rfl]
    omega
  have hmagic : body.take 7 = magicBytes := by
    rw [hbodyEq]
    simp only [List.append_assoc]
    exact List.take_left' rfl
  have hparse := readCrypt4GH_parse_nonNone C scryptName salt
    (u16be supportedCipherName.length ++ supportedCipherName
      ++ u16be (nonce ++ C.chachaSeal dk nonce p).length
      ++ (nonce ++ C.chachaSeal dk nonce p)) password 0 0 0 0 hmem hnn hnl hsl
  rw [show (((0 * 256 + 0) * 256 + 0) * 256 + 0 : Nat) = 0 by norm_num] at hparse
  have htail := readCrypt4GHTail_parse C scryptName password 0 salt
    supportedCipherName (nonce ++ C.chachaSeal dk nonce p) hcl hpl
  have hparsew := readCrypt4GH_parse_nonNone C scryptName salt
    (u16be supportedCipherName.length ++ supportedCipherName
      ++ u16be (nonce ++ C.chachaSeal dk nonce p).length
      ++ (nonce ++ C.chachaSeal dk nonce p)) wrongPass 0 0 0 0 hmem hnn hnl hsl
  rw [show (((0 * 256 + 0) * 256 + 0) * 256 + 0 : Nat) = 0 by norm_num] at hparsew
  have htailw := readCrypt4GHTail_parse C scryptName wrongPass 0 salt
    supportedCipherName (nonce ++ C.chachaSeal dk nonce p) hcl hpl
  constructor
  · rw [ReadPrivateKey_crypt4gh_path E C file body (some password) hssh hpem hasn h7 hmagic,
      hbodyEq, hparse, htail]
    rw [if_neg (show ¬(scryptName = noneName) by decide),
      if_neg (show ¬(supportedCipherName ≠ supportedCipherName) by simp)]
    simp only [hkdf]
    rw [if_neg (show ¬(dk.length ≠ 32) by simp [hdk32]),
      if_neg (show ¬((nonce ++ C.chachaSeal dk nonce p).length < 12) by
        simp only [List.length_append, hnonce]; omega),
      List.take_left' hnonce, List.drop_left' hnonce]
    simp only [hopen]
    rw [copy32_of_length p hp]
  · rw [ReadPrivateKey_crypt4gh_path E C file body (some wrongPass) hsshw hpem hasn h7 hmagic,
      hbodyEq, hparsew, htailw]
    rw [if_neg (show ¬(scryptName = noneName) by decide),
      if_neg (show ¬(supportedCipherName ≠ supportedCipherName) by simp)]
    simp only [hkdfw]
    rw [if_neg (show ¬(dkw.length ≠ 32) by simp [hdkw32]),
      if_neg (show ¬((nonce ++ C.chachaSeal dk nonce p).length < 12) by
        simp only [List.length_append, hnonce]; omega),
      List.take_left' hnonce, List.drop_left' hnonce]
    simp only [hopenw]


theorem crypt4gh_private_key_roundtrip_witness :
    ReadPrivateKey
        (constParseEnv
          (WriteCrypt4GHX25519PrivateKeyBody testPrims (List.replicate 32 5) [1]
            (List.replicate 16 9) (List.replicate 12 3)) none none none)
        testPrims [9] (some [1]) = .ok (List.replicate 32 5) ∧
    ReadPrivateKey
        (constParseEnv
          (WriteCrypt4GHX25519PrivateKeyBody testPrims (List.replicate 32 5) [1]
            (List.replicate 16 9) (List.replicate 12 3)) none none none)
        testPrims [9] (some [2]) = .err .decryptFailed :=
  crypt4gh_private_key_roundtrip
    (constParseEnv
      (WriteCrypt4GHX25519PrivateKeyBody testPrims (List.replicate 32 5) [1]
        (List.replicate 16 9) (List.replicate 12 3)) none none none)
    testPrims (List.replicate 32 5) [1] [2] (List.replicate 16 9)
    (List.replicate 12 3) [9]
    ((WriteCrypt4GHX25519PrivateKeyBody testPrims (List.replicate 32 5) [1]
        (List.replicate 16 9) (List.replicate 12 3)).getD [])
    ([1] ++ List.replicate 31 0) ([2] ++ List.replicate 31 0)
    (by decide) (by decide) (by decide)
    rfl (by decide) (by decide) rfl rfl rfl rfl rfl rfl rfl (by decide) rfl


/-- **C6.** On input that is none of the supported formats,
`ReadPrivateKey` does not return `UnsupportedPrivateKeyFormat` in general:
it panics.  When `pem.Decode` returns a nil block (input that is not PEM
at all) the code dereferences `block.Bytes` on a nil pointer, and when the
PEM body is shorter than 7 bytes the slice `block.Bytes[:7]` is out of
range.  This theorem evaluates the model on those inputs. -/
theorem read_private_key_panics_on_unrecognized_input (E : ParseEnv)
    (C : CryptoPrims) (bytes body : Bytes) (pp : Option Bytes)
    (hssh : E.sshParsePrivate bytes pp = .sshError) :
    (E.pemDecode bytes = none → ReadPrivateKey E C bytes pp = .panics) ∧
    (E.pemDecode bytes = some body → E.asn1UnmarshalPrivate body = none →
      body.length < 7 → ReadPrivateKey E C bytes pp = .panics) := by
  constructor
  · intro hpem
    simp only [ReadPrivateKey, hssh, hpem]
  · intro hpem hasn hlen
    simp only [ReadPrivateKey, hssh, hpem, hasn]
    rw [if_pos hlen]

theorem read_private_key_panics_witness :
    ReadPrivateKey (constParseEnv none none none none) testPrims [] none
      = .panics ∧
    ReadPrivateKey (constParseEnv (some [1, 2, 3]) none none none) testPrims []
      none = .panics :=
  ⟨(read_private_key_panics_on_unrecognized_input
      (constParseEnv none none none none) testPrims [] [] none rfl).1 rfl,
   (read_private_key_panics_on_unrecognized_input
      (constParseEnv (some [1, 2, 3]) none none none) testPrims [] [1, 2, 3]
      none rfl).2 rfl rfl (by decide)⟩

/-- **C7, counterexample.** An input whose PEM body is shorter than 32
bytes (here 3 bytes) and fails both the ssh and the ASN.1 parses makes
`ReadPublicKey` panic on `block.Bytes[len-32:]` instead of succeeding, so
the claim as stated (success for every such input) is false. -/
theorem read_public_key_short_body_panics :
    ReadPublicKey (constParseEnv (some [1, 2, 3]) none none none) testPrims [9]
      = .panics := rfl

/-- **C7, amended.** When the ssh parse fails, the PEM body ASN.1-fails or
carries an OID that is neither Ed25519 nor X25519, and the body is at
least 32 bytes long, `ReadPublicKey` succeeds with the body's trailing 32
bytes and never returns an unsupported-format error. -/
theorem read_public_key_raw_fallback (E : ParseEnv) (C : CryptoPrims)
    (bytes body : Bytes)
    (hssh : E.sshParseAuthorized bytes = none)
    (hpem : E.pemDecode bytes = some body)
    (hasn : E.asn1UnmarshalPublic body = none ∨
      ∃ oid, E.asn1UnmarshalPublic body = some oid ∧
        oid ≠ ed25519Algorithm ∧ oid ≠ x25519Algorithm)
    (hlen : 32 ≤ body.length) :
    ReadPublicKey E C bytes = .ok (body.drop (body.length - 32)) := by
  have hdrop : copy32 (body.drop (body.length - 32))
      = body.drop (body.length - 32) := by
    apply copy32_of_length
    rw [List.length_drop]
    omega
  rcases hasn with hasn | ⟨oid, hoid, hed, hx⟩
  · simp only [ReadPublicKey, hssh, hpem, hasn]
    rw [if_neg (by omega), hdrop]
  · simp only [ReadPublicKey, hssh, hpem, hoid]
    rw [if_neg hed, if_neg hx, if_neg (by omega), hdrop]

theorem read_public_key_raw_fallback_witness :
    ReadPublicKey
        (constParseEnv (some (List.replicate 40 7)) none none (some [9, 9]))
        testPrims [1]
      = .ok ((List.replicate 40 7).drop ((List.replicate 40 7).length - 32)) :=
  read_public_key_raw_fallback
    (constParseEnv (some (List.replicate 40 7)) none none (some [9, 9]))
    testPrims [1] (List.replicate 40 7) rfl rfl
    (Or.inr ⟨[9, 9], rfl, by decide, by decide⟩) (by decide)


/-- **C8.** Decoding a Crypt4GH private key body: an unknown KDF name
fails with `UnsupportedKDF(name)` (checked before anything else); a known
KDF other than `none` with no passphrase fails with `PasswordRequired`;
KDF `none` with a cipher other than `none` fails with
`MismatchedKdfCipher`; a KDF other than `none` (passphrase supplied) with
a cipher other than `chacha20_poly1305` fails with
`UnsupportedCipher(name)`.  The error constructors carry no key material,
matching the Go code returning the zero-valued key with the error. -/
theorem crypt4gh_private_key_error_dispatch (C : CryptoPrims) :
    (∀ (name rest : Bytes) (pp : Option Bytes), name ∉ kdfsNames →
      name.length < 65536 →
      readCrypt4GHPrivateKey C (magicBytes ++ u16be name.length ++ name ++ rest)
        pp = .err (.unsupportedKDF name)) ∧
    (∀ (name rest : Bytes), name ∈ kdfsNames → name ≠ noneName →
      name.length < 65536 →
      readCrypt4GHPrivateKey C (magicBytes ++ u16be name.length ++ name ++ rest)
        none = .err .passwordRequired) ∧
    (∀ (cipher payload : Bytes) (pp : Option Bytes), cipher ≠ noneName →
      cipher.length < 65536 → payload.length < 65536 →
      readCrypt4GHPrivateKey C
        (magicBytes ++ u16be 4 ++ noneName
          ++ (u16be cipher.length ++ cipher ++ u16be payload.length ++ payload))
        pp = .err .mismatchedKdfCipher) ∧
    (∀ (name salt cipher payload pp : Bytes) (a b c d : Nat),
      name ∈ kdfsNames → name ≠ noneName → cipher ≠ supportedCipherName →
      name.length < 65536 → salt.length < 65532 → cipher.length < 65536 →
      payload.length < 65536 →
      readCrypt4GHPrivateKey C
        (magicBytes ++ u16be name.length ++ name ++ u16be (4 + salt.length)
          ++ [a, b, c, d] ++ salt
          ++ (u16be cipher.length ++ cipher ++ u16be payload.length ++ payload))
        (some pp) = .err (.unsupportedCipher cipher)) := by
  refine ⟨?_, ?_, ?_, ?_⟩
  · intro name rest pp hnot hnl
    simp only [readCrypt4GHPrivateKey, List.append_assoc, drop_magic,
      readU16_u16be _ hnl]
    rw [readBytesN_exact]
    simp only [hnot, reduceIte]
  · intro name rest hmem hnn hnl
    simp only [readCrypt4GHPrivateKey, List.append_assoc, drop_magic,
      readU16_u16be _ hnl]
    rw [readBytesN_exact]
    simp only [hmem, if_true, reduceIte]
    rw [if_pos hnn]
  · intro cipher payload pp hcne hcl hpl
    rw [readCrypt4GH_parse_none, readCrypt4GHTail_parse C noneName [] 0 []
      cipher payload hcl hpl, if_pos rfl, if_pos hcne]
  · intro name salt cipher payload pp a b c d hmem hnn hcs hnl hsl hcl hpl
    rw [readCrypt4GH_parse_nonNone C name salt _ pp a b c d hmem hnn hnl hsl,
      readCrypt4GHTail_parse C name pp _ salt cipher payload hcl hpl,
      if_neg hnn, if_pos hcs]

theorem crypt4gh_private_key_error_dispatch_witness :
    readCrypt4GHPrivateKey testPrims
        (magicBytes ++ u16be [120].length ++ [120] ++ []) none
      = .err (.unsupportedKDF [120]) ∧
    readCrypt4GHPrivateKey testPrims
        (magicBytes ++ u16be scryptName.length ++ scryptName ++ []) none
      = .err .passwordRequired ∧
    readCrypt4GHPrivateKey testPrims
        (magicBytes ++ u16be 4 ++ noneName
          ++ (u16be [99].length ++ [99] ++ u16be ([] : Bytes).length ++ [])) none
      = .err .mismatchedKdfCipher ∧
    readCrypt4GHPrivateKey testPrims
        (magicBytes ++ u16be scryptName.length ++ scryptName
          ++ u16be (4 + (List.replicate 16 9 : Bytes).length)
          ++ [0, 0, 0, 0] ++ List.replicate 16 9
          ++ (u16be noneName.length ++ noneName ++ u16be ([] : Bytes).length ++ []))
        (some [1]) = .err (.unsupportedCipher noneName) :=
  ⟨(crypt4gh_private_key_error_dispatch testPrims).1 [120] [] none (by decide)
      (by decide),
   (crypt4gh_private_key_error_dispatch testPrims).2.1 scryptName [] (by decide)
      (by decide) (by decide),
   (crypt4gh_private_key_error_dispatch testPrims).2.2.1 [99] [] none
      (by decide) (by decide) (by decide),
   (crypt4gh_private_key_error_dispatch testPrims).2.2.2 scryptName
      (List.replicate 16 9) noneName [] [1] 0 0 0 0 (by decide) (by decide)
      (by decide) (by decide) (by decide) (by decide) (by decide)⟩


/-- **C9.** Writing a 32-byte X25519 private key with
`WriteOpenSSLX25519PrivateKey` and reading the PEM back with
`ReadPrivateKey` and no passphrase yields exactly the key: the key is the
trailing 32 bytes of the DER body, which the X25519-OID branch copies. -/
theorem openssl_private_key_roundtrip (E : ParseEnv) (C : CryptoPrims)
    (p file : Bytes) (parsed : OpenSSLPrivateKeyParsed)
    (hp : p.length = 32)
    (hssh : E.sshParsePrivate file none = .sshError)
    (hpem : E.pemDecode file = some (WriteOpenSSLX25519PrivateKeyDER p))
    (hasn : E.asn1UnmarshalPrivate (WriteOpenSSLX25519PrivateKeyDER p)
      = some parsed)
    (halg : parsed.algorithm = x25519Algorithm) :
    ReadPrivateKey E C file none = .ok p := by
  have hshape : WriteOpenSSLX25519PrivateKeyDER p
      = [48, 46, 2, 1, 0, 48, 5, 6, 3, 43, 101, 110, 4, 34, 4, 32] ++ p := by
    simp [WriteOpenSSLX25519PrivateKeyDER, hp]
  have hlen : (WriteOpenSSLX25519PrivateKeyDER p).length = 48 := by
    rw [hshape]
    simp [hp]
  rw [ReadPrivateKey_x25519_path E C file _ none parsed hssh hpem hasn halg
    (by omega), hlen, hshape, show (48 - 32 : Nat) = 16 from rfl,
    List.drop_left' (by simp), copy32_of_length p hp]

theorem openssl_private_key_roundtrip_witness :
    ReadPrivateKey
        (constParseEnv (some (WriteOpenSSLX25519PrivateKeyDER (List.replicate 32 7)))
          (some ⟨0, x25519Algorithm, []⟩) none none)
        testPrims [] none
      = .ok (List.replicate 32 7) :=
  openssl_private_key_roundtrip
    (constParseEnv (some (WriteOpenSSLX25519PrivateKeyDER (List.replicate 32 7)))
      (some ⟨0, x25519Algorithm, []⟩) none none)
    testPrims (List.replicate 32 7) [] ⟨0, x25519Algorithm, []⟩
    (by decide) rfl rfl rfl rfl

/-- **C10.** Decoding a Crypt4GH private key never validates the payload
length.  With KDF `none` and cipher `none` the payload is copied into the
zeroed 32-byte array: fewer than 32 bytes leave trailing zeros, more than
32 bytes are truncated to the first 32.  In the encrypted case the same
copy is applied to the AEAD plaintext, whatever its length. -/
theorem crypt4gh_private_key_payload_unchecked (C : CryptoPrims) :
    (∀ (payload : Bytes) (pp : Option Bytes), payload.length < 65536 →
      readCrypt4GHPrivateKey C
        (magicBytes ++ u16be 4 ++ noneName
          ++ (u16be noneName.length ++ noneName ++ u16be payload.length ++ payload))
        pp = .ok (payload.take 32 ++ List.replicate (32 - payload.length) 0)) ∧
    (∀ (name salt payload pp dk m : Bytes) (a b c d : Nat),
      name ∈ kdfsNames → name ≠ noneName →
      name.length < 65536 → salt.length < 65532 → payload.length < 65536 →
      C.kdfDerive name (((a * 256 + b) * 256 + c) * 256 + d) pp salt = some dk →
      dk.length = 32 → 12 ≤ payload.length →
      C.chachaOpen dk (payload.take 12) (payload.drop 12) = some m →
      readCrypt4GHPrivateKey C
        (magicBytes ++ u16be name.length ++ name ++ u16be (4 + salt.length)
          ++ [a, b, c, d] ++ salt
          ++ (u16be supportedCipherName.length ++ supportedCipherName
              ++ u16be payload.length ++ payload)) (some pp)
        = .ok (m.take 32 ++ List.replicate (32 - m.length) 0)) := by
  constructor
  · intro payload pp hpl
    rw [readCrypt4GH_parse_none, readCrypt4GHTail_parse C noneName [] 0 []
      noneName payload (by decide) hpl, if_pos rfl,
      if_neg (show ¬(noneName ≠ noneName) by simp)]
    rfl
  · intro name salt payload pp dk m a b c d hmem hnn hnl hsl hpl hkdf hdk32
      h12 hopen
    rw [readCrypt4GH_parse_nonNone C name salt _ pp a b c d hmem hnn hnl hsl,
      readCrypt4GHTail_parse C name pp _ salt supportedCipherName payload
        (by decide) hpl, if_neg hnn,
      if_neg (show ¬(supportedCipherName ≠ supportedCipherName) by simp)]
    simp only [hkdf]
    rw [if_neg (show ¬(dk.length ≠ 32) by simp [hdk32]),
      if_neg (show ¬(payload.length < 12) by omega)]
    simp only [hopen]
    rfl

theorem crypt4gh_private_key_payload_unchecked_witness :
    readCrypt4GHPrivateKey testPrims
        (magicBytes ++ u16be 4 ++ noneName
          ++ (u16be noneName.length ++ noneName ++ u16be ([1, 2] : Bytes).length
            ++ [1, 2])) none
      = .ok (([1, 2] : Bytes).take 32 ++ List.replicate (32 - ([1, 2] : Bytes).length) 0) ∧
    readCrypt4GHPrivateKey testPrims
        (magicBytes ++ u16be scryptName.length ++ scryptName
          ++ u16be (4 + (List.replicate 16 9 : Bytes).length)
          ++ [0, 0, 0, 0] ++ List.replicate 16 9
          ++ (u16be supportedCipherName.length ++ supportedCipherName
              ++ u16be (List.replicate 12 0 ++ ([1] ++ List.replicate 31 0) ++ [7, 8] : Bytes).length
              ++ (List.replicate 12 0 ++ ([1] ++ List.replicate 31 0) ++ [7, 8])))
        (some [1])
      = .ok (([7, 8] : Bytes).take 32 ++ List.replicate (32 - ([7, 8] : Bytes).length) 0) :=
  ⟨(crypt4gh_private_key_payload_unchecked testPrims).1 [1, 2] none (by decide),
   (crypt4gh_private_key_payload_unchecked testPrims).2 scryptName
      (List.replicate 16 9)
      (List.replicate 12 0 ++ ([1] ++ List.replicate 31 0) ++ [7, 8]) [1]
      ([1] ++ List.replicate 31 0) [7, 8] 0 0 0 0 (by decide) (by decide)
      (by decide) (by decide) (by decide) rfl (by decide) (by decide)
      (by decide)⟩

end Crypt4gh
